import Mathlib

/-!
# Verification of the cytraco bootstrap flow

Shallow embedding of the cytraco repository: the configuration store
(`src/cytraco/config.py`), the BLE trainer scanner (`src/cytraco/trainer.py`),
the terminal setup UI (`src/cytraco/ui/setup.py`), the bootstrap orchestrator
(`src/cytraco/bootstrap.py`) and the CLI demo path (`src/cytraco/cli.py`).

Python's dynamic values that can appear in a parsed TOML document are modelled
by `TomlValue`; the effects of the orchestrator (prompts, scans, connection
attempts, file writes) are modelled by an explicit event trace.
-/

namespace Cytraco

/-- A dynamic value as produced by `tomllib.load` for a scalar key.  The
Python code stores whatever value the parser produced without checking its
type, so the embedding keeps the value dynamic. -/
inductive TomlValue where
  | vInt (n : Int)
  | vStr (s : String)
  | vBool (b : Bool)
deriving DecidableEq, Repr

/-- `cytraco.model.config.Config`: dataclass with fields `ftp`,
`device_address`, `demo`.  At runtime the `ftp` slot can hold `None` or any
TOML value (`load_file` passes `data.get("ftp")` unchecked), hence
`Option TomlValue`. -/
structure Config where
  ftp : Option TomlValue
  device_address : Option String
  demo : Bool := false
deriving DecidableEq, Repr

/-- `cytraco.errors.ConfigError`. -/
inductive CfgError where
  | configError (msg : String)
deriving DecidableEq, Repr

/-- `cytraco.errors.DeviceError`. -/
inductive DevError where
  | deviceError (msg : String)
deriving DecidableEq, Repr

/-- The state of the configuration file as seen by `TomlConfig.load_file`:
missing, unparsable, or parsed into a table with the two known keys. -/
structure TomlData where
  device_address : Option String
  ftp : Option TomlValue
deriving DecidableEq, Repr

/-- The on-disk situation `load_file` can encounter. -/
inductive TomlFile where
  | missing
  | malformed
  | parsed (d : TomlData)
deriving DecidableEq, Repr

/-- `TomlConfig.load_file` (src/cytraco/config.py, lines 13-37): a missing
file and undecodable TOML raise `ConfigError`; otherwise the `Config` is
built from `data.get("device_address")` and `data.get("ftp")` with no
validation of either value. -/
def load_file : TomlFile → Except CfgError Config
  | .missing => .error (.configError "Config file not found")
  | .malformed => .error (.configError "Invalid TOML")
  | .parsed d => .ok { ftp := d.ftp, device_address := d.device_address }

/-- Rendering of a dynamic value inside the f-string `f"ftp = \x7bconfig.ftp\x7d"`
of `write_file` (Python `str()` of the value). -/
def pyShowToml : TomlValue → String
  | .vInt n => toString n
  | .vStr s => s
  | .vBool b => if b then "True" else "False"

/-- `TomlConfig.write_file` (src/cytraco/config.py, lines 39-70), returning
the bytes written.  A configuration without `device_address` is rejected with
`ConfigError("Cannot write config without device_address")`; otherwise the
content is the `device_address` line, the `ftp` line when `ftp` is not
`None`, joined by newlines with one trailing newline. -/
def write_file (config : Config) : Except CfgError String :=
  match config.device_address with
  | none => .error (.configError "Cannot write config without device_address")
  | some a =>
    let lines := ["device_address = \"" ++ a ++ "\""] ++
      (match config.ftp with
       | some v => ["ftp = " ++ pyShowToml v]
       | none => [])
    let content := String.intercalate "\n" lines
    let content := if content ≠ "" then content ++ "\n" else content
    .ok content

/-- `cytraco.trainer.TrainerInfo`. -/
structure TrainerInfo where
  name : String
  address : String
  rssi : Int
deriving DecidableEq, Repr

/-- A device as reported by `bleak.BleakScanner.discover`: the name may be
absent (or empty, which Python's `d.name or "Unknown"` also replaces). -/
structure RawDevice where
  name : Option String
  address : String
  rssi : Int
deriving DecidableEq, Repr

/-- Outcome of the underlying `BleakScanner.discover` call: either an
exception from the transport or the list of discovered devices. -/
inductive DiscoverOutcome where
  | failure (msg : String)
  | found (devices : List RawDevice)
deriving DecidableEq, Repr

/-- `BleakTrainerScanner.scan` (src/cytraco/trainer.py, lines 71-95): any
exception from the transport is re-raised as
`DeviceError("BLE scan failed: ...")`; a successful discovery (possibly
empty) is mapped to `TrainerInfo` records, with absent or empty names
replaced by `"Unknown"`. -/
def scanTrainers : DiscoverOutcome → Except DevError (List TrainerInfo)
  | .failure msg => .error (.deviceError ("BLE scan failed: " ++ msg))
  | .found ds => .ok (ds.map fun d =>
      { name := match d.name with
          | none => "Unknown"
          | some s => if s = "" then "Unknown" else s
        address := d.address
        rssi := d.rssi })

/-- Outcome of the `bleak.BleakClient` connection attempt inside
`BleakTrainerScanner.connect`: one of the three caught exception classes, or
completion with the client's `is_connected` flag. -/
inductive ConnectAttempt where
  | bleakError
  | osError
  | timeoutError
  | completed (isConnected : Bool)
deriving DecidableEq, Repr

/-- `BleakTrainerScanner.connect` (src/cytraco/trainer.py, lines 97-110):
`BleakError`, `OSError` and `TimeoutError` are caught and reported as
`False`; otherwise the client's `is_connected` value is returned. -/
def connectTrainer : ConnectAttempt → Bool
  | .bleakError => false
  | .osError => false
  | .timeoutError => false
  | .completed b => b

/-- `cytraco.bootstrap.UserChoice` (src/cytraco/bootstrap.py, lines 16-36):
the orchestrator's closed set of user answers.  There is no demo variant. -/
inductive UserChoice where
  | CONTINUE
  | RETRY
  | SCAN
  | EXIT
deriving DecidableEq, Repr

/-- The fixed BLE conditions of one run: the result of
`trn.check_connection` per address and the (side-effect free) result of
`trn.scan_for_trainers`.  These module-level functions are called by
`bootstrap.py` but absent from `src/cytraco/trainer.py`; their contract is
the Device Directory one (`testReachable(address) -> bool`,
`scan() -> [DeviceInfo]`). -/
structure BleEnv where
  connect : String → Bool
  scanResult : List TrainerInfo

/-- Responses the `SetupUI` collaborator returns across one run, one stream
per prompt method; an exhausted stream models the user closing the input
(each prompt returns `None` on exit/interrupt/EOF). -/
structure SetupUIState where
  ftpResponses : List (Option Int)
  noTrainersResponses : List (Option UserChoice)
  singleResponses : List (Option UserChoice)
  selectionResponses : List (Option TrainerInfo)
  reconnectResponses : List (Option UserChoice)

/-- Observable effects of a bootstrap run, in order. -/
inductive Event where
  | evLoadFile
  | evWriteFile (c : Config)
  | evScan
  | evConnect (address : String)
  | evPromptFtp
  | evPromptNoTrainers
  | evPromptSingle (t : TrainerInfo)
  | evPromptSelection (ts : List TrainerInfo)
  | evPromptReconnect (address : String)
deriving DecidableEq, Repr

/-- `_test_configured_trainer` (src/cytraco/bootstrap.py, lines 196-211):
check the connection, then look for the address in a fresh scan; the first
scan entry with the configured address is returned, `none` otherwise. -/
def _test_configured_trainer (env : BleEnv) (address : String) :
    Option TrainerInfo × List Event :=
  if !(env.connect address) then
    (none, [.evConnect address])
  else
    (env.scanResult.find? (fun t => t.address == address),
     [.evConnect address, .evScan])

/-- Result of `_handle_unreachable_trainer`: the Python function returns
`None`, a `TrainerInfo`, or the literal string `"scan"` used as a sentinel. -/
inductive UnreachableResult where
  | exit
  | found (t : TrainerInfo)
  | scanSentinel
deriving DecidableEq, Repr

/-- `_handle_unreachable_trainer` (src/cytraco/bootstrap.py, lines 214-239):
loop on the reconnect prompt; `None` exits, `RETRY` re-tests the configured
trainer, `SCAN` returns the `"scan"` sentinel, anything else exits. -/
def _handle_unreachable_trainer (env : BleEnv) (address : String) :
    List (Option UserChoice) → UnreachableResult × List Event
  | [] => (.exit, [.evPromptReconnect address])
  | choice :: rest =>
    match choice with
    | none => (.exit, [.evPromptReconnect address])
    | some .RETRY =>
      let (t?, tr) := _test_configured_trainer env address
      match t? with
      | some t => (.found t, .evPromptReconnect address :: tr)
      | none =>
        let (r, tr2) := _handle_unreachable_trainer env address rest
        (r, .evPromptReconnect address :: (tr ++ tr2))
    | some .SCAN => (.scanSentinel, [.evPromptReconnect address])
    | some _ => (.exit, [.evPromptReconnect address])

/-- The `len(trainers) == 0` arm of the `_scan_and_select_trainer` loop
(src/cytraco/bootstrap.py, lines 254-258): prompt for no trainers; only
`RETRY` rescans and loops, `None` or any other answer exits.  Each iteration
re-scans (the scan result is fixed for the run, so the loop stays in this
arm) and consumes one response. -/
def scanLoopZero : List (Option UserChoice) → Option TrainerInfo × List Event
  | [] => (none, [.evScan, .evPromptNoTrainers])
  | choice :: rest =>
    if choice = some UserChoice.RETRY then
      let r := scanLoopZero rest
      (r.1, .evScan :: .evPromptNoTrainers :: r.2)
    else (none, [.evScan, .evPromptNoTrainers])

/-- The `len(trainers) == 1` arm of the `_scan_and_select_trainer` loop
(src/cytraco/bootstrap.py, lines 260-266): prompt to confirm the single
trainer; `None` exits, `CONTINUE` selects it, any other answer rescans and
loops. -/
def scanLoopSingle (t : TrainerInfo) :
    List (Option UserChoice) → Option TrainerInfo × List Event
  | [] => (none, [.evScan, .evPromptSingle t])
  | choice :: rest =>
    match choice with
    | none => (none, [.evScan, .evPromptSingle t])
    | some .CONTINUE => (some t, [.evScan, .evPromptSingle t])
    | some _ =>
      let r := scanLoopSingle t rest
      (r.1, .evScan :: .evPromptSingle t :: r.2)

/-- The multiple-trainers arm of the `_scan_and_select_trainer` loop
(src/cytraco/bootstrap.py, lines 268-272): prompt for a selection; `None`
exits, a selection is returned directly (no loop in this arm). -/
def scanSelectMulti (ts : List TrainerInfo) :
    List (Option TrainerInfo) → Option TrainerInfo × List Event
  | [] => (none, [.evScan, .evPromptSelection ts])
  | none :: _ => (none, [.evScan, .evPromptSelection ts])
  | some t :: _ => (some t, [.evScan, .evPromptSelection ts])

/-- `_scan_and_select_trainer` (src/cytraco/bootstrap.py, lines 242-272):
loop: scan, then branch on `len(trainers)` being 0 / 1 / several.  Since the
BLE conditions of a run are fixed, every iteration takes the same branch, so
the loop is embedded as the dispatch over the scan-result shape into the
three per-arm loops above. -/
def _scan_and_select_trainer (env : BleEnv) (ui : SetupUIState) :
    Option TrainerInfo × List Event :=
  match env.scanResult with
  | [] => scanLoopZero ui.noTrainersResponses
  | [t] => scanLoopSingle t ui.singleResponses
  | _ :: _ :: _ => scanSelectMulti env.scanResult ui.selectionResponses

/-- `_select_trainer` (src/cytraco/bootstrap.py, lines 275-299): when an
address is configured, test it; on success return the trainer, otherwise run
the unreachable-trainer prompt, falling through to the scan flow only on the
`"scan"` sentinel.  Without a configured address, go straight to the scan
flow. -/
def _select_trainer (env : BleEnv) (config : Config) (ui : SetupUIState) :
    Option TrainerInfo × List Event :=
  match config.device_address with
  | some a =>
    let (t?, tr1) := _test_configured_trainer env a
    match t? with
    | some t => (some t, tr1)
    | none =>
      let (r, tr2) := _handle_unreachable_trainer env a ui.reconnectResponses
      match r with
      | .exit => (none, tr1 ++ tr2)
      | .found t => (some t, tr1 ++ tr2)
      | .scanSentinel =>
        let (s, tr3) := _scan_and_select_trainer env ui
        (s, tr1 ++ tr2 ++ tr3)
  | none => _scan_and_select_trainer env ui

/-- The configuration file as the orchestrator's store sees it: `none` when
`config_path.exists()` is false, otherwise the parsed configuration handed
to the store.  This is the store-level view only: after a write, `content`
records the `Config` passed to `write_file`, not the bytes on disk.
Whether those bytes reload as the same `Config` is a separate fact about
the byte level, settled by `write_file` and `load_bytes` (they do not
always: `write_file` renders a string `ftp` unquoted, and `load_bytes`
then fails, see `C2_counterexample`), so any cross-run statement must
route the second run's input through `load_bytes` of the first run's
written bytes explicitly. -/
structure FileState where
  content : Option Config
deriving DecidableEq, Repr

/-- `bootstrap_app` (src/cytraco/bootstrap.py, lines 156-193): load the
config when the file exists, else prompt for FTP (exit on `None`); select a
trainer; on success set `device_address` to the selected trainer's address,
write the file once and return the config; on user exit return `None`
without writing.  Returns (outcome, resulting file state, event trace).
The returned `FileState` is the store-level record of what was written
(the `Config` handed to `write_file`); the bytes the write produces and
what a later load makes of them are modelled separately by `write_file`
and `load_bytes`. -/
def bootstrap_app (env : BleEnv) (disk : FileState) (ui : SetupUIState) :
    Option Config × FileState × List Event :=
  let loaded : Option Config × List Event :=
    match disk.content with
    | some c => (some c, [.evLoadFile])
    | none =>
      match ui.ftpResponses.head? with
      | some (some v) =>
        (some { ftp := some (.vInt v), device_address := none }, [.evPromptFtp])
      | _ => (none, [.evPromptFtp])
  match loaded with
  | (none, tr0) => (none, disk, tr0)
  | (some config, tr0) =>
    let (sel, tr1) := _select_trainer env config ui
    match sel with
    | none => (none, disk, tr0 ++ tr1)
    | some t =>
      let config2 := { config with device_address := some t.address }
      (some config2, ⟨some config2⟩, tr0 ++ tr1 ++ [.evWriteFile config2])

/-- One item read from stdin by `input()`: a text line, a
`KeyboardInterrupt`, or an `EOFError`. -/
inductive UserInput where
  | text (s : String)
  | interrupt
  | eofInput
deriving DecidableEq, Repr

/-- Python's notion of whitespace for `str.strip()` (ASCII subset). -/
def pyIsSpace (c : Char) : Bool :=
  c = ' ' || c = '\t' || c = '\n' || c = '\r' || c = '\x0b' || c = '\x0c'

/-- Python's `str.strip()`: drop leading and trailing whitespace. -/
def pyStrip (s : String) : String :=
  String.mk (((s.data.dropWhile pyIsSpace).reverse.dropWhile pyIsSpace).reverse)

/-- Python's `str.lower()` on one character (ASCII range). -/
def pyLowerChar (c : Char) : Char :=
  if 'A' ≤ c && c ≤ 'Z' then Char.ofNat (c.toNat + 32) else c

/-- Python's `str.lower()` (ASCII range). -/
def pyLower (s : String) : String := String.mk (s.data.map pyLowerChar)

/-- Digit run of a Python integer literal after the first digit: decimal
digits with single underscores allowed between digits.  (The same grammar
also applies to TOML integers.) -/
def pyIntDigits : Nat → List Char → Option Nat
  | acc, [] => some acc
  | acc, c :: rest =>
    if c = '_' then
      match rest with
      | [] => none
      | d :: rest2 =>
        if d.isDigit then pyIntDigits (acc * 10 + (d.toNat - 48)) rest2 else none
    else if c.isDigit then pyIntDigits (acc * 10 + (c.toNat - 48)) rest
    else none

/-- Unsigned part of Python's `int(str)`: at least one digit. -/
def pyIntCore : List Char → Option Nat
  | [] => none
  | d :: rest => if d.isDigit then pyIntDigits (d.toNat - 48) rest else none

/-- Python's `int(str)` on a decimal string: surrounding whitespace, an
optional sign, then digits (single underscores between digits allowed);
anything else raises `ValueError`, modelled as `none`. -/
def pyInt (s : String) : Option Int :=
  match (pyStrip s).data with
  | '+' :: rest => (pyIntCore rest).map Int.ofNat
  | '-' :: rest => (pyIntCore rest).map (fun n => -(n : Int))
  | cs => (pyIntCore cs).map Int.ofNat

/-- `TerminalSetup.prompt_ftp` (src/cytraco/ui/setup.py, lines 10-32): loop
over input lines; a stripped `"e"` (case-insensitive), an interrupt, an EOF
or exhausted input returns `None`; a parsed positive integer is returned;
a non-positive or unparsable entry re-prompts. -/
def prompt_ftp : List UserInput → Option Int
  | [] => none
  | .interrupt :: _ => none
  | .eofInput :: _ => none
  | .text s :: rest =>
    let value := pyStrip s
    if pyLower value = "e" then none
    else
      match pyInt value with
      | some n => if n > 0 then some n else prompt_ftp rest
      | none => prompt_ftp rest

/-- The result type expected from the bootstrap layer by
`src/cytraco/cli.py` and `src/tests/test_bootstrap.py` (`result.config`,
`result.demo_mode`); the class itself is absent from
`src/cytraco/bootstrap.py`. -/
structure BootstrapResult where
  config : Config
  demo_mode : Bool
deriving DecidableEq, Repr

/-- Modelled from the spec: `bootstrap_demo_mode` is called by
`src/cytraco/cli.py` (line 52) but missing from `src/cytraco/bootstrap.py`.
Spec: the forced demo flag is "a distinct entry point that skips directly to
Completed(demoMode=true) once a threshold is known, bypassing the device
states entirely" — load the configuration when the file exists, otherwise
acquire the threshold from the FTP prompt; no device-selection state is
entered and the run completes in demo mode. -/
def bootstrap_demo_mode (disk : FileState) (ftpResponses : List (Option Int)) :
    Option BootstrapResult × List Event :=
  match disk.content with
  | some c => (some ⟨c, true⟩, [.evLoadFile])
  | none =>
    match ftpResponses.head? with
    | some (some v) =>
      (some ⟨{ ftp := some (.vInt v), device_address := none }, true⟩,
       [.evPromptFtp])
    | _ => (none, [.evPromptFtp])

/-- The `--demo` branch of `_run_app` under `app` (src/cytraco/cli.py,
lines 45-66 and 69-86): run `bootstrap_demo_mode`; when a result is
produced the summary is printed and the process finishes with exit code 0
(no `sys.exit` call, no exception).  When the bootstrap produces no result
the CLI dereferences it without a check, so no exit code is defined. -/
def cli_demo_run (disk : FileState) (ftpResponses : List (Option Int)) :
    Option Nat × List Event :=
  let (res, tr) := bootstrap_demo_mode disk ftpResponses
  match res with
  | some _ => (some 0, tr)
  | none => (none, tr)

/-- Is the event a configuration write? -/
def Event.isWrite : Event → Bool
  | .evWriteFile _ => true
  | _ => false

/-- Is the event a BLE scan? -/
def Event.isScan : Event → Bool
  | .evScan => true
  | _ => false

/-- Is the event one of the three scan-outcome prompts? -/
def Event.isScanPrompt : Event → Bool
  | .evPromptNoTrainers => true
  | .evPromptSingle _ => true
  | .evPromptSelection _ => true
  | _ => false

/-- Is the event a device-selection interaction (scan, connection attempt,
or any device prompt)? -/
def Event.isDeviceEvent : Event → Bool
  | .evScan => true
  | .evConnect _ => true
  | .evPromptNoTrainers => true
  | .evPromptSingle _ => true
  | .evPromptSelection _ => true
  | .evPromptReconnect _ => true
  | _ => false

/-- The prompt the spec assigns to a scan result of a given size. -/
def expectedPrompt : List TrainerInfo → Event
  | [] => .evPromptNoTrainers
  | [t] => .evPromptSingle t
  | ts => .evPromptSelection ts

/-- TOML whitespace inside a line (space and tab). -/
def tomlLineWS (c : Char) : Bool := c = ' ' || c = '\t'

/-- Strip TOML line whitespace from both ends of a character list. -/
def stripWS (cs : List Char) : List Char :=
  (((cs.dropWhile tomlLineWS).reverse.dropWhile tomlLineWS)).reverse

/-- Split a character list on newlines (the line structure `tomllib` sees;
a trailing newline yields a final empty line). -/
def splitOnNl : List Char → List (List Char)
  | [] => [[]]
  | c :: rest =>
    if c = '\n' then [] :: splitOnNl rest
    else
      match splitOnNl rest with
      | [] => [[c]]
      | l :: ls => (c :: l) :: ls

/-- A character allowed inside a TOML basic string without escaping:
tab or a printable character other than `"` and `\`.  (Escape sequences are
outside the modelled fragment and are reported as parse errors.) -/
def tomlStrChar (c : Char) : Bool :=
  if c = '\t' then true
  else if c.toNat < 32 then false
  else if c.toNat = 127 then false
  else if c = '"' then false
  else if c = '\\' then false
  else true

/-- A character of a TOML bare key (`A-Za-z0-9_-`). -/
def bareKeyChar (c : Char) : Bool := c.isAlphanum || c = '_' || c = '-'

/-- The digit run of a TOML integer: same digit/underscore grammar as
Python's, but leading zeros are rejected (`0` alone is allowed). -/
def parseTomlNat (cs : List Char) : Option Nat :=
  match cs with
  | [] => none
  | c :: rest =>
    if c = '0' then
      match rest with
      | [] => some 0
      | _ => none
    else pyIntCore cs

/-- A TOML integer value: optional sign, then digits. -/
def parseTomlInt (cs : List Char) : Option TomlValue :=
  match cs with
  | [] => none
  | c :: rest =>
    if c = '+' then (parseTomlNat rest).map fun n => .vInt (n : Int)
    else if c = '-' then (parseTomlNat rest).map fun n => .vInt (-(n : Int))
    else (parseTomlNat cs).map fun n => .vInt (n : Int)

/-- A TOML scalar value (already stripped): a basic string without escapes,
an integer, or a boolean; anything else is a parse error (`none`). -/
def parseTomlValue (cs : List Char) : Option TomlValue :=
  match cs with
  | [] => none
  | c :: rest =>
    if c = '"' then
      let content := rest.takeWhile (fun d => d ≠ '"')
      match rest.drop content.length with
      | ['"'] => if content.all tomlStrChar then some (.vStr (String.mk content)) else none
      | _ => none
    else
      match parseTomlInt (c :: rest) with
      | some v => some v
      | none =>
        if c :: rest = "true".data then some (.vBool true)
        else if c :: rest = "false".data then some (.vBool false)
        else none

/-- One line of the configuration file: blank (whitespace only), or
`key = value` with a bare key; `none` is a parse error. -/
def parseTomlLine (cs : List Char) : Option (Option (String × TomlValue)) :=
  if stripWS cs = [] then some none
  else
    let keyPart := cs.takeWhile (fun c => c ≠ '=')
    match cs.drop keyPart.length with
    | '=' :: valuePart =>
      let key := stripWS keyPart
      if key ≠ [] ∧ key.all bareKeyChar then
        match parseTomlValue (stripWS valuePart) with
        | some v => some (some (String.mk key, v))
        | none => none
      else none
    | _ => none

/-- Parse every line, skipping blank ones; `none` as soon as a line is
invalid. -/
def parseTomlLines : List (List Char) → Option (List (String × TomlValue))
  | [] => some []
  | l :: ls =>
    match parseTomlLine l with
    | none => none
    | some none => parseTomlLines ls
    | some (some kv) => (parseTomlLines ls).map (kv :: ·)

/-- Build the document's two known keys from the parsed key/value pairs.
Duplicate keys are a TOML error; a `device_address` that is not a string
does not fit the embedding's `str`-typed slot and is outside the modelled
fragment; other keys are parsed but ignored (as `data.get` ignores them). -/
def tomlAssemble : List (String × TomlValue) → TomlData → List String → Option TomlData
  | [], acc, _ => some acc
  | (k, v) :: rest, acc, seen =>
    if seen.contains k then none
    else
      match
        (if k = "device_address" then
          match v with
          | .vStr s => some { acc with device_address := some s }
          | _ => none
        else if k = "ftp" then some { acc with ftp := some v }
        else some acc) with
      | none => none
      | some acc2 => tomlAssemble rest acc2 (k :: seen)

/-- Model of `tomllib.load` on the file's bytes, restricted to the flat
`key = value` scalar grammar this configuration file uses (no comments,
escapes, or non-scalar values — such inputs are reported as parse errors,
which is what `tomllib` itself does for every byte string the theorems
below apply this model to). -/
def tomllibLoad (s : String) : Except CfgError TomlData :=
  match parseTomlLines (splitOnNl s.data) with
  | none => .error (.configError "Invalid TOML")
  | some kvs =>
    match tomlAssemble kvs { device_address := none, ftp := none } [] with
    | none => .error (.configError "Invalid TOML")
    | some d => .ok d

/-- `TomlConfig.load_file` applied to a file holding the bytes `s`:
`tomllib.load` modelled by `tomllibLoad`, then the same unvalidated
`Config` construction as `load_file` (src/cytraco/config.py, lines 25-31).
This is the byte-level counterpart of the parsed-level `load_file`. -/
def load_bytes (s : String) : Except CfgError Config :=
  match tomllibLoad s with
  | .error e => .error e
  | .ok d => .ok { ftp := d.ftp, device_address := d.device_address }

/-- The canonical decimal digit list of a natural number (reference
function used to characterise core's `Nat.toDigits`, which renders the
numbers `write_file` embeds in the file). -/
def natDigits (n : Nat) : List Char :=
  if n < 10 then [Nat.digitChar n]
  else natDigits (n / 10) ++ [Nat.digitChar (n % 10)]
decreasing_by
  exact Nat.div_lt_self (by omega) (by omega)

/-- C4: the load operation is claimed to fail with a validation error
whenever `thresholdPower` is absent, not an integer, or not strictly
positive.  Counterexample: a parsed file with `ftp = -5` (and no
`device_address`) loads successfully — `load_file` performs no validation of
the `ftp` value. -/
theorem C4_counterexample :
    load_file (TomlFile.parsed { device_address := none, ftp := some (TomlValue.vInt (-5)) }) =
      Except.ok { ftp := some (TomlValue.vInt (-5)), device_address := none } := rfl

/-- C4 (amended): loading succeeds for every parsed file regardless of the
`ftp` value — absent, non-integer or non-positive values are all accepted
unchecked; loading fails only when the file is missing or the TOML cannot
be parsed. -/
theorem C4_load_no_validation :
    (∀ d : TomlData, load_file (.parsed d) =
        .ok { ftp := d.ftp, device_address := d.device_address }) ∧
    load_file .missing = .error (.configError "Config file not found") ∧
    load_file .malformed = .error (.configError "Invalid TOML") :=
  ⟨fun _ => rfl, rfl, rfl⟩

/-- C8: `scan` raises a distinct `DeviceError` on transport failure and
returns an empty list (not an error) when no devices are found — a
transport failure is therefore never reported as zero devices; `connect`
returns `false` on each of the caught connection failures (`BleakError`,
`OSError`, `TimeoutError`) instead of raising, and otherwise reports the
client's connection flag. -/
theorem C8_scan_connect_errors :
    (∀ msg, scanTrainers (.failure msg) =
        .error (.deviceError ("BLE scan failed: " ++ msg))) ∧
    scanTrainers (.found []) = .ok [] ∧
    (∀ msg, (scanTrainers (.failure msg)).isOk = false) ∧
    connectTrainer .bleakError = false ∧
    connectTrainer .osError = false ∧
    connectTrainer .timeoutError = false ∧
    (∀ b, connectTrainer (.completed b) = b) :=
  ⟨fun _ => rfl, rfl, fun _ => rfl, rfl, rfl, rfl, fun _ => rfl⟩

/-- C1: the claim says saving a configuration whose `deviceAddress` is
absent succeeds and is a valid persisted state.  Counterexample: the store
rejects `{ ftp := 200 }` without an address with a `ConfigError`. -/
theorem C1_counterexample :
    write_file { ftp := some (TomlValue.vInt 200), device_address := none } =
      Except.error (CfgError.configError "Cannot write config without device_address") := rfl

/-- `_test_configured_trainer` performs no configuration write. -/
theorem test_configured_trainer_no_write (env : BleEnv) (a : String) :
    ∀ e ∈ (_test_configured_trainer env a).snd, e.isWrite = false := by
  intro e he
  unfold _test_configured_trainer at he
  split at he
  · simp at he; simp [he, Event.isWrite]
  · simp at he
    rcases he with h | h <;> simp [h, Event.isWrite]

/-- `_handle_unreachable_trainer` performs no configuration write. -/
theorem handle_unreachable_trainer_no_write (env : BleEnv) (a : String) :
    ∀ rs, ∀ e ∈ (_handle_unreachable_trainer env a rs).snd, e.isWrite = false := by
  intro rs
  induction rs with
  | nil => intro e he; simp [_handle_unreachable_trainer] at he; simp [he, Event.isWrite]
  | cons choice rest ih =>
    intro e he
    match choice with
    | none => simp [_handle_unreachable_trainer] at he; simp [he, Event.isWrite]
    | some .SCAN => simp [_handle_unreachable_trainer] at he; simp [he, Event.isWrite]
    | some .CONTINUE => simp [_handle_unreachable_trainer] at he; simp [he, Event.isWrite]
    | some .EXIT => simp [_handle_unreachable_trainer] at he; simp [he, Event.isWrite]
    | some .RETRY =>
      simp only [_handle_unreachable_trainer] at he
      rcases ht : (_test_configured_trainer env a) with ⟨t?, tr⟩
      rw [ht] at he
      match t? with
      | some t =>
        simp at he
        rcases he with h | h
        · simp [h, Event.isWrite]
        · exact test_configured_trainer_no_write env a e (by rw [ht]; exact h)
      | none =>
        simp at he
        rcases he with h | h | h
        · simp [h, Event.isWrite]
        · exact test_configured_trainer_no_write env a e (by rw [ht]; exact h)
        · exact ih e h

/-- A scan result that is neither empty nor a singleton gets the
multiple-devices prompt. -/
theorem expectedPrompt_of_multi (a b : TrainerInfo) (ts : List TrainerInfo) :
    expectedPrompt (a :: b :: ts) = .evPromptSelection (a :: b :: ts) := rfl

/-- The empty-scan arm: its trace balances scans against prompts, every
prompt is the no-trainers one, and no write occurs. -/
theorem scanLoopZero_trace_spec (noRs : List (Option UserChoice)) :
    ((scanLoopZero noRs).snd.countP Event.isScanPrompt =
      (scanLoopZero noRs).snd.countP Event.isScan) ∧
    (∀ e ∈ (scanLoopZero noRs).snd,
      (e.isScanPrompt = true → e = Event.evPromptNoTrainers) ∧ e.isWrite = false) := by
  induction noRs with
  | nil =>
    simp [scanLoopZero, Event.isScanPrompt, Event.isScan, Event.isWrite, List.countP_cons]
  | cons choice rest ih =>
    by_cases hc : choice = some UserChoice.RETRY
    · simp only [scanLoopZero, hc, if_pos]
      refine ⟨?_, ?_⟩
      · simp [List.countP_cons, Event.isScanPrompt, Event.isScan, ih.1]
      · intro e he
        simp at he
        rcases he with h | h | h
        · simp [h, Event.isScanPrompt, Event.isWrite]
        · simp [h, Event.isScanPrompt, Event.isWrite]
        · exact ih.2 e h
    · simp [scanLoopZero, hc, Event.isScanPrompt, Event.isScan, Event.isWrite,
        List.countP_cons]

/-- The single-trainer arm: its trace balances scans against prompts, every
prompt is the single-trainer one, and no write occurs. -/
theorem scanLoopSingle_trace_spec (t : TrainerInfo)
    (singleRs : List (Option UserChoice)) :
    ((scanLoopSingle t singleRs).snd.countP Event.isScanPrompt =
      (scanLoopSingle t singleRs).snd.countP Event.isScan) ∧
    (∀ e ∈ (scanLoopSingle t singleRs).snd,
      (e.isScanPrompt = true → e = Event.evPromptSingle t) ∧ e.isWrite = false) := by
  induction singleRs with
  | nil =>
    simp [scanLoopSingle, Event.isScanPrompt, Event.isScan, Event.isWrite, List.countP_cons]
  | cons choice rest ih =>
    rcases choice with _ | c
    · simp [scanLoopSingle, Event.isScanPrompt, Event.isScan, Event.isWrite,
        List.countP_cons]
    · rcases c with _ | _ | _ | _
      case CONTINUE =>
        simp [scanLoopSingle, Event.isScanPrompt, Event.isScan, Event.isWrite,
          List.countP_cons]
      all_goals
        refine ⟨?_, ?_⟩
        · simp [scanLoopSingle, List.countP_cons, Event.isScanPrompt, Event.isScan, ih.1]
        · intro e he
          simp [scanLoopSingle] at he
          rcases he with h | h | h
          · simp [h, Event.isScanPrompt, Event.isWrite]
          · simp [h, Event.isScanPrompt, Event.isWrite]
          · exact ih.2 e h

/-- The multiple-trainers arm: its trace balances scans against prompts,
every prompt is the selection one, and no write occurs. -/
theorem scanSelectMulti_trace_spec (ts : List TrainerInfo)
    (selRs : List (Option TrainerInfo)) :
    ((scanSelectMulti ts selRs).snd.countP Event.isScanPrompt =
      (scanSelectMulti ts selRs).snd.countP Event.isScan) ∧
    (∀ e ∈ (scanSelectMulti ts selRs).snd,
      (e.isScanPrompt = true → e = Event.evPromptSelection ts) ∧ e.isWrite = false) := by
  rcases selRs with _ | ⟨_ | u, tl⟩ <;>
    simp [scanSelectMulti, List.countP_cons, Event.isScanPrompt, Event.isScan,
      Event.isWrite]

/-- The scan-selection flow: its trace balances scans against prompts, every
prompt is the one determined by the scan-result size, and no write occurs. -/
theorem scan_select_trace_spec (env : BleEnv) (ui : SetupUIState) :
    ((_scan_and_select_trainer env ui).snd.countP Event.isScanPrompt =
      (_scan_and_select_trainer env ui).snd.countP Event.isScan) ∧
    (∀ e ∈ (_scan_and_select_trainer env ui).snd,
      (e.isScanPrompt = true → e = expectedPrompt env.scanResult) ∧ e.isWrite = false) := by
  unfold _scan_and_select_trainer
  rcases hscan : env.scanResult with _ | ⟨t, _ | ⟨b, ts⟩⟩
  · simpa [hscan, expectedPrompt] using scanLoopZero_trace_spec ui.noTrainersResponses
  · simpa [hscan, expectedPrompt] using
      scanLoopSingle_trace_spec t ui.singleResponses
  · simpa [expectedPrompt] using
      scanSelectMulti_trace_spec (t :: b :: ts) ui.selectionResponses

/-- `_scan_and_select_trainer` performs no configuration write. -/
theorem scan_select_no_write (env : BleEnv) (ui : SetupUIState) :
    ∀ e ∈ (_scan_and_select_trainer env ui).snd, e.isWrite = false :=
  fun e he => ((scan_select_trace_spec env ui).2 e he).2

/-- `_select_trainer` performs no configuration write. -/
theorem select_trainer_no_write (env : BleEnv) (config : Config) (ui : SetupUIState) :
    ∀ e ∈ (_select_trainer env config ui).snd, e.isWrite = false := by
  intro e he
  unfold _select_trainer at he
  rcases hda : config.device_address with _ | a
  · simp only [hda] at he
    exact scan_select_no_write env ui e he
  · simp only [hda] at he
    rcases ht : _test_configured_trainer env a with ⟨t?, tr1⟩
    simp only [ht] at he
    have htr1 : ∀ x ∈ tr1, Event.isWrite x = false := by
      intro x hx
      exact test_configured_trainer_no_write env a x (by rw [ht]; exact hx)
    rcases t? with _ | t
    · rcases hh : _handle_unreachable_trainer env a ui.reconnectResponses with ⟨r, tr2⟩
      simp only [hh] at he
      have htr2 : ∀ x ∈ tr2, Event.isWrite x = false := by
        intro x hx
        exact handle_unreachable_trainer_no_write env a ui.reconnectResponses x
          (by rw [hh]; exact hx)
      rcases r with _ | t | _
      · simp only [List.mem_append] at he
        rcases he with h | h
        · exact htr1 e h
        · exact htr2 e h
      · simp only [List.mem_append] at he
        rcases he with h | h
        · exact htr1 e h
        · exact htr2 e h
      · simp only [List.mem_append] at he
        rcases he with (h | h) | h
        · exact htr1 e h
        · exact htr2 e h
        · exact scan_select_no_write env ui e h
    · exact htr1 e he

/-- A trace with no write events has write count zero. -/
theorem countP_write_zero (tr : List Event)
    (h : ∀ e ∈ tr, e.isWrite = false) : tr.countP Event.isWrite = 0 := by
  rw [List.countP_eq_zero]
  intro e he
  simp only [h e he]
  exact Bool.false_ne_true

/-- Inversion of a cancelled `bootstrap_app` run: the disk is untouched and
no write happened. -/
theorem bootstrap_app_none_inv (env : BleEnv) (disk : FileState) (ui : SetupUIState)
    (d2 : FileState) (tr : List Event)
    (h : bootstrap_app env disk ui = (none, d2, tr)) :
    d2 = disk ∧ tr.countP Event.isWrite = 0 := by
  unfold bootstrap_app at h
  rcases hdisk : disk.content with _ | c0
  · simp only [hdisk] at h
    rcases hftp : ui.ftpResponses.head? with _ | v?
    · simp only [hftp, Prod.mk.injEq] at h
      refine ⟨h.2.1.symm, ?_⟩
      rw [← h.2.2]
      simp [Event.isWrite]
    · rcases v? with _ | v
      · simp only [hftp, Prod.mk.injEq] at h
        refine ⟨h.2.1.symm, ?_⟩
        rw [← h.2.2]
        simp [Event.isWrite]
      · simp only [hftp] at h
        rcases hsel : _select_trainer env
            { ftp := some (.vInt v), device_address := none } ui with ⟨s?, tr1⟩
        simp only [hsel] at h
        rcases s? with _ | t
        · simp only [Prod.mk.injEq] at h
          refine ⟨h.2.1.symm, ?_⟩
          rw [← h.2.2]
          have hz : tr1.countP Event.isWrite = 0 := countP_write_zero tr1 fun e he =>
            select_trainer_no_write env _ ui e (by rw [hsel]; exact he)
          simp [List.countP_cons, List.countP_append, Event.isWrite, hz]
        · simp at h
  · simp only [hdisk] at h
    rcases hsel : _select_trainer env c0 ui with ⟨s?, tr1⟩
    simp only [hsel] at h
    rcases s? with _ | t
    · simp only [Prod.mk.injEq] at h
      refine ⟨h.2.1.symm, ?_⟩
      rw [← h.2.2]
      have hz : tr1.countP Event.isWrite = 0 := countP_write_zero tr1 fun e he =>
        select_trainer_no_write env c0 ui e (by rw [hsel]; exact he)
      simp [List.countP_cons, List.countP_append, Event.isWrite, hz]
    · simp at h

/-- Inversion of a completed `bootstrap_app` run: the returned configuration
carries the selected trainer's address, it is what the store now holds, and
exactly one write happened. -/
theorem bootstrap_app_some_inv (env : BleEnv) (disk : FileState) (ui : SetupUIState)
    (c : Config) (d2 : FileState) (tr : List Event)
    (h : bootstrap_app env disk ui = (some c, d2, tr)) :
    (∃ t : TrainerInfo, c.device_address = some t.address) ∧
    d2 = ⟨some c⟩ ∧ tr.countP Event.isWrite = 1 := by
  unfold bootstrap_app at h
  rcases hdisk : disk.content with _ | c0
  · simp only [hdisk] at h
    rcases hftp : ui.ftpResponses.head? with _ | v?
    · simp only [hftp] at h
      simp at h
    · rcases v? with _ | v
      · simp only [hftp] at h
        simp at h
      · simp only [hftp] at h
        rcases hsel : _select_trainer env
            { ftp := some (.vInt v), device_address := none } ui with ⟨s?, tr1⟩
        simp only [hsel] at h
        rcases s? with _ | t
        · simp at h
        · simp only [Prod.mk.injEq, Option.some.injEq] at h
          have hz : tr1.countP Event.isWrite = 0 := countP_write_zero tr1 fun e he =>
            select_trainer_no_write env _ ui e (by rw [hsel]; exact he)
          refine ⟨⟨t, by rw [← h.1]⟩, by rw [← h.2.1, ← h.1], ?_⟩
          rw [← h.2.2]
          simp [List.countP_cons, List.countP_append, Event.isWrite, hz]
  · simp only [hdisk] at h
    rcases hsel : _select_trainer env c0 ui with ⟨s?, tr1⟩
    simp only [hsel] at h
    rcases s? with _ | t
    · simp at h
    · simp only [Prod.mk.injEq, Option.some.injEq] at h
      have hz : tr1.countP Event.isWrite = 0 := countP_write_zero tr1 fun e he =>
        select_trainer_no_write env c0 ui e (by rw [hsel]; exact he)
      refine ⟨⟨t, by rw [← h.1]⟩, by rw [← h.2.1, ← h.1], ?_⟩
      rw [← h.2.2]
      simp [List.countP_cons, List.countP_append, Event.isWrite, hz]

/-- When the connection check passes, `_test_configured_trainer` reduces to
the address lookup in the fresh scan. -/
theorem test_configured_eq (env : BleEnv) (a : String) (h : env.connect a = true) :
    _test_configured_trainer env a =
      (env.scanResult.find? (fun t => t.address == a), [.evConnect a, .evScan]) := by
  unfold _test_configured_trainer
  simp [h]

/-- When the connection check fails, `_test_configured_trainer` does not
scan and returns nothing. -/
theorem test_configured_eq_unreachable (env : BleEnv) (a : String)
    (h : env.connect a = false) :
    _test_configured_trainer env a = (none, [.evConnect a]) := by
  unfold _test_configured_trainer
  simp [h]

/-- A run over a stored configuration whose address is reachable and present
in the fresh scan: the run completes with the stored configuration
unchanged, stores it again, and its trace is load, connect, scan, write. -/
theorem bootstrap_reconnect_run (env : BleEnv) (c : Config) (a : String)
    (ui : SetupUIState) (t : TrainerInfo) (h1 : c.device_address = some a)
    (h2 : env.connect a = true)
    (h3 : env.scanResult.find? (fun x => x.address == a) = some t) :
    bootstrap_app env ⟨some c⟩ ui =
      (some c, ⟨some c⟩, [.evLoadFile, .evConnect a, .evScan, .evWriteFile c]) := by
  have hta : t.address = a := by
    have := List.find?_some h3
    simpa using this
  have hconfig2 : { c with device_address := some t.address } = c := by
    rcases c with ⟨ftp, da, demo⟩
    simp at h1
    simp [hta, h1]
  unfold bootstrap_app
  simp only []
  unfold _select_trainer
  simp only [h1, test_configured_eq env a h2, h3, hconfig2]
  rfl


/-- `_handle_unreachable_trainer` always invokes the reconnect prompt. -/
theorem handle_unreachable_mem_prompt (env : BleEnv) (a : String)
    (rs : List (Option UserChoice)) :
    Event.evPromptReconnect a ∈ (_handle_unreachable_trainer env a rs).snd := by
  match rs with
  | [] => simp [_handle_unreachable_trainer]
  | choice :: rest =>
    match choice with
    | none => simp [_handle_unreachable_trainer]
    | some .SCAN => simp [_handle_unreachable_trainer]
    | some .CONTINUE => simp [_handle_unreachable_trainer]
    | some .EXIT => simp [_handle_unreachable_trainer]
    | some .RETRY =>
      rcases ht : _test_configured_trainer env a with ⟨t?, tr⟩
      rcases t? with _ | t <;> simp [_handle_unreachable_trainer, ht]

/-- C6: for every scan result list, the orchestrator's scan loop invokes
exactly one prompt per scan — the no-devices prompt on size 0, the
single-device prompt on size 1, the multiple-devices prompt on size 2 or
more (the count of prompt events equals the count of scan events, and every
prompt event is the one determined by the scan-result size). -/
theorem C6_scan_count_branching :
    ∀ (env : BleEnv) (ui : SetupUIState),
      ((_scan_and_select_trainer env ui).snd.countP Event.isScanPrompt =
        (_scan_and_select_trainer env ui).snd.countP Event.isScan) ∧
      ∀ e ∈ (_scan_and_select_trainer env ui).snd,
        e.isScanPrompt = true → e = expectedPrompt env.scanResult :=
  fun env ui => ⟨(scan_select_trace_spec env ui).1,
    fun e he hp => ((scan_select_trace_spec env ui).2 e he).1 hp⟩

/-- Witness for C6: a singleton scan result produces exactly the
single-device prompt for that device. -/
theorem C6_witness :
    Event.evPromptSingle ⟨"Trainer X", "AA:BB:CC:DD:EE:FF", -60⟩ =
      expectedPrompt [⟨"Trainer X", "AA:BB:CC:DD:EE:FF", -60⟩] :=
  (C6_scan_count_branching ⟨fun _ => false, [⟨"Trainer X", "AA:BB:CC:DD:EE:FF", -60⟩]⟩
      ⟨[], [], [some UserChoice.CONTINUE], [], []⟩).2
    (Event.evPromptSingle ⟨"Trainer X", "AA:BB:CC:DD:EE:FF", -60⟩)
    (by simp [_scan_and_select_trainer, scanLoopSingle]) rfl

/-- C5: a run that ends in a Completed outcome invokes the write operation
exactly once, and a run that ends in user cancellation never invokes it and
leaves the configuration file state exactly as it was (in particular a
non-existent file is not created). -/
theorem C5_write_exactly_once :
    ∀ (env : BleEnv) (disk : FileState) (ui : SetupUIState)
      (res : Option Config) (d2 : FileState) (tr : List Event),
      bootstrap_app env disk ui = (res, d2, tr) →
      (res.isSome = true → tr.countP Event.isWrite = 1) ∧
      (res = none → tr.countP Event.isWrite = 0 ∧ d2 = disk) := by
  intro env disk ui res d2 tr h
  constructor
  · intro hs
    rcases res with _ | c
    · simp at hs
    · exact (bootstrap_app_some_inv env disk ui c d2 tr h).2.2
  · intro hn
    subst hn
    obtain ⟨hd, hc⟩ := bootstrap_app_none_inv env disk ui d2 tr h
    exact ⟨hc, hd⟩

/-- Witness for C5: cancelling at the FTP prompt performs no write and
leaves the absent file absent. -/
theorem C5_witness :
    List.countP Event.isWrite [Event.evPromptFtp] = 0 ∧
      FileState.mk none = FileState.mk none :=
  (C5_write_exactly_once ⟨fun _ => false, []⟩ ⟨none⟩ ⟨[], [], [], [], []⟩
    none ⟨none⟩ [Event.evPromptFtp] rfl).2 rfl

/-- C1 (amended): every run of the orchestrator that reaches a Completed
outcome persists a configuration whose `deviceAddress` is present (the
selected trainer's), and the store rejects saving a configuration whose
`deviceAddress` is absent with a `ConfigError` — absence of `deviceAddress`
is not a persistable state, and no demo-mode completion exists in the
orchestrator. -/
theorem C1_address_required_to_persist :
    (∀ (env : BleEnv) (disk : FileState) (ui : SetupUIState) (c : Config)
      (d2 : FileState) (tr : List Event),
      bootstrap_app env disk ui = (some c, d2, tr) →
      c.device_address.isSome = true ∧ d2.content = some c ∧
        (write_file c).isOk = true) ∧
    (∀ c : Config, c.device_address = none →
      write_file c =
        .error (.configError "Cannot write config without device_address")) := by
  constructor
  · intro env disk ui c d2 tr h
    obtain ⟨⟨t, hta⟩, hd2, _⟩ := bootstrap_app_some_inv env disk ui c d2 tr h
    refine ⟨by simp [hta], by rw [hd2], ?_⟩
    unfold write_file
    simp only [hta]
    rfl
  · intro c hc
    unfold write_file
    simp only [hc]

/-- Witness for C1: the scenario of spec §8 (fresh config, FTP 250, single
trainer confirmed) completes with the trainer's address present, and the
concrete address-less configuration is rejected by the store. -/
theorem C1_witness :
    ((some "AA:BB:CC:DD:EE:FF" : Option String).isSome = true ∧
      (FileState.mk (some { ftp := some (.vInt 250), device_address := some "AA:BB:CC:DD:EE:FF" })).content = some { ftp := some (.vInt 250), device_address := some "AA:BB:CC:DD:EE:FF" } ∧
      (write_file { ftp := some (.vInt 250), device_address := some "AA:BB:CC:DD:EE:FF" }).isOk = true) ∧
    write_file { ftp := some (.vInt 200), device_address := none } =
      .error (.configError "Cannot write config without device_address") :=
  ⟨C1_address_required_to_persist.1 ⟨fun _ => true, [⟨"Trainer X", "AA:BB:CC:DD:EE:FF", -60⟩]⟩
      ⟨none⟩ ⟨[some 250], [], [some UserChoice.CONTINUE], [], []⟩
      { ftp := some (.vInt 250), device_address := some "AA:BB:CC:DD:EE:FF" }
      ⟨some { ftp := some (.vInt 250), device_address := some "AA:BB:CC:DD:EE:FF" }⟩
      [Event.evPromptFtp, Event.evScan,
        Event.evPromptSingle ⟨"Trainer X", "AA:BB:CC:DD:EE:FF", -60⟩,
        Event.evWriteFile { ftp := some (.vInt 250), device_address := some "AA:BB:CC:DD:EE:FF" }] rfl,
    C1_address_required_to_persist.2
      { ftp := some (.vInt 200), device_address := none } rfl⟩

/-- `takeWhile` passes over a prefix it wholly satisfies. -/
theorem takeWhile_all_append (p : Char → Bool) (l1 l2 : List Char)
    (h : ∀ c ∈ l1, p c = true) :
    (l1 ++ l2).takeWhile p = l1 ++ l2.takeWhile p := by
  induction l1 with
  | nil => rfl
  | cons c rest ih =>
    simp only [List.cons_append, List.takeWhile_cons, h c (by simp)]
    rw [ih fun d hd => h d (by simp [hd])]
    simp

/-- `dropWhile` keeps a list none of whose elements satisfy the predicate. -/
theorem dropWhile_all_neg (p : Char → Bool) (l : List Char)
    (h : ∀ c ∈ l, p c = false) : l.dropWhile p = l := by
  match l with
  | [] => rfl
  | c :: rest => simp [List.dropWhile_cons, h c (by simp)]

/-- Stripping does nothing to a list free of line whitespace. -/
theorem stripWS_all (cs : List Char) (h : ∀ c ∈ cs, tomlLineWS c = false) :
    stripWS cs = cs := by
  unfold stripWS
  rw [dropWhile_all_neg _ _ h,
    dropWhile_all_neg _ _ (fun c hc => h c (List.mem_reverse.mp hc)), List.reverse_reverse]

/-- Stripping consumes a leading whitespace character. -/
theorem stripWS_ws_cons (c : Char) (cs : List Char) (hc : tomlLineWS c = true) :
    stripWS (c :: cs) = stripWS cs := by
  unfold stripWS
  simp [List.dropWhile_cons, hc]

/-- Stripping does nothing when both ends are not whitespace. -/
theorem stripWS_of_ends (x y : Char) (mid : List Char)
    (hx : tomlLineWS x = false) (hy : tomlLineWS y = false) :
    stripWS ((x :: mid) ++ [y]) = (x :: mid) ++ [y] := by
  unfold stripWS
  simp only [List.cons_append]
  have h1 : List.dropWhile tomlLineWS (x :: (mid ++ [y])) = x :: (mid ++ [y]) := by
    simp [List.dropWhile_cons, hx]
  rw [h1]
  have h2 : (x :: (mid ++ [y])).reverse = y :: (mid.reverse ++ [x]) := by
    simp
  rw [h2]
  have h3 : List.dropWhile tomlLineWS (y :: (mid.reverse ++ [x])) =
      y :: (mid.reverse ++ [x]) := by
    simp [List.dropWhile_cons, hy]
  rw [h3]
  simp

/-- A list with a non-whitespace head strips to a nonempty list. -/
theorem stripWS_ne_nil (c : Char) (cs : List Char) (hc : tomlLineWS c = false) :
    stripWS (c :: cs) ≠ [] := by
  unfold stripWS
  intro h
  rw [List.reverse_eq_nil_iff, List.dropWhile_eq_nil_iff] at h
  have hdw : List.dropWhile tomlLineWS (c :: cs) = c :: cs := by
    simp [List.dropWhile_cons, hc]
  have hmem : c ∈ (List.dropWhile tomlLineWS (c :: cs)).reverse := by
    rw [hdw, List.mem_reverse]
    simp
  have := h c hmem
  simp [hc] at this

/-- Splitting on newlines peels off a newline-free prefix line. -/
theorem splitOnNl_append_cons (l1 l2 : List Char) (h : ∀ c ∈ l1, c ≠ '\n') :
    splitOnNl (l1 ++ '\n' :: l2) = l1 :: splitOnNl l2 := by
  induction l1 with
  | nil => rfl
  | cons c rest ih =>
    have hc : c ≠ '\n' := h c (by simp)
    have ih' := ih fun d hd => h d (by simp [hd])
    show (if c = '\n' then [] :: splitOnNl (rest ++ '\n' :: l2)
        else match splitOnNl (rest ++ '\n' :: l2) with
          | [] => [[c]]
          | l :: ls => (c :: l) :: ls) = (c :: rest) :: splitOnNl l2
    rw [if_neg hc, ih']

/-- `Nat.digitChar` of a digit is a digit character. -/
theorem digitChar_isDigit (k : Nat) (h : k < 10) :
    (Nat.digitChar k).isDigit = true := by
  interval_cases k <;> decide

/-- `Nat.digitChar` inverts to its digit value. -/
theorem digitChar_toNat (k : Nat) (h : k < 10) :
    (Nat.digitChar k).toNat - 48 = k := by
  interval_cases k <;> decide

/-- `Nat.digitChar` of a nonzero digit is not `'0'`. -/
theorem digitChar_ne_zero (k : Nat) (h0 : k ≠ 0) (h : k < 10) :
    Nat.digitChar k ≠ '0' := by
  interval_cases k <;> simp_all <;> decide

/-- The canonical digit list is never empty. -/
theorem natDigits_ne_nil (n : Nat) : natDigits n ≠ [] := by
  unfold natDigits
  split <;> simp

/-- Every character of the canonical digit list is a digit. -/
theorem natDigits_all_digit (n : Nat) : ∀ c ∈ natDigits n, c.isDigit = true := by
  induction n using Nat.strong_induction_on with
  | _ n ih =>
    unfold natDigits
    split
    · next h => simp [digitChar_isDigit n h]
    · next h =>
      intro c hc
      simp only [List.mem_append, List.mem_singleton] at hc
      rcases hc with hc | hc
      · exact ih (n / 10) (Nat.div_lt_self (by omega) (by omega)) c hc
      · rw [hc]; exact digitChar_isDigit _ (Nat.mod_lt _ (by omega))

/-- The canonical digit list of a nonzero number starts with a nonzero
digit. -/
theorem natDigits_head_ne_zero (n : Nat) (hn : n ≠ 0) :
    ∃ d ds, natDigits n = d :: ds ∧ d ≠ '0' ∧ d.isDigit = true := by
  induction n using Nat.strong_induction_on with
  | _ n ih =>
    unfold natDigits
    split
    · next h =>
      exact ⟨_, _, rfl, digitChar_ne_zero n hn h, digitChar_isDigit n h⟩
    · next h =>
      obtain ⟨d, ds, hds, hd0, hddig⟩ :=
        ih (n / 10) (Nat.div_lt_self (by omega) (by omega)) (by omega)
      exact ⟨d, ds ++ [Nat.digitChar (n % 10)], by rw [hds]; simp, hd0, hddig⟩

/-- Core's fuelled digit renderer computes the canonical digit list. -/
theorem toDigitsCore_eq_natDigits (fuel : Nat) :
    ∀ (n : Nat) (ds : List Char), n < fuel →
      Nat.toDigitsCore 10 fuel n ds = natDigits n ++ ds := by
  induction fuel with
  | zero => intro n ds h; omega
  | succ fuel ih =>
    intro n ds h
    have hunf : Nat.toDigitsCore 10 (fuel + 1) n ds =
        (if n / 10 = 0 then Nat.digitChar (n % 10) :: ds
         else Nat.toDigitsCore 10 fuel (n / 10) (Nat.digitChar (n % 10) :: ds)) := by
      simp [Nat.toDigitsCore]
    rw [hunf]
    by_cases hdiv : n / 10 = 0
    · have hlt : n < 10 := by omega
      rw [if_pos hdiv]
      unfold natDigits
      rw [if_pos hlt, Nat.mod_eq_of_lt hlt]
      rfl
    · have hge : ¬ n < 10 := by omega
      rw [if_neg hdiv]
      rw [ih (n / 10) _ (by
        have : n / 10 < n := Nat.div_lt_self (by omega) (by omega)
        omega)]
      conv_rhs => rw [natDigits]
      rw [if_neg hge]
      simp

/-- The characters of `Nat.repr` are the canonical digit list. -/
theorem repr_data (n : Nat) : (Nat.repr n).data = natDigits n := by
  show (Nat.toDigitsCore 10 (n + 1) n []).asString.data = natDigits n
  rw [toDigitsCore_eq_natDigits (n + 1) n [] (by omega)]
  simp [List.asString]

/-- A digit character's code point is between 48 and 57. -/
theorem digit_toNat_range (c : Char) (h : c.isDigit = true) :
    48 ≤ c.toNat ∧ c.toNat ≤ 57 := by
  simp [Char.isDigit] at h
  exact ⟨h.1, h.2⟩

/-- A digit character is none of the special characters the parser treats
specially. -/
theorem digit_ne_special (c : Char) (h : c.isDigit = true) :
    c ≠ '_' ∧ c ≠ '+' ∧ c ≠ '-' ∧ c ≠ '"' ∧ c ≠ '\n' ∧ tomlLineWS c = false := by
  refine ⟨?_, ?_, ?_, ?_, ?_, ?_⟩
  · rintro rfl; exact absurd h (by decide)
  · rintro rfl; exact absurd h (by decide)
  · rintro rfl; exact absurd h (by decide)
  · rintro rfl; exact absurd h (by decide)
  · rintro rfl; exact absurd h (by decide)
  · have hsp : c ≠ ' ' := by rintro rfl; exact absurd h (by decide)
    have htb : c ≠ '\t' := by rintro rfl; exact absurd h (by decide)
    simp [tomlLineWS, hsp, htb]

/-- Unfolding of the digit-run parser on a list not starting with an
underscore. -/
theorem pyIntDigits_cons_ne (acc : Nat) (c : Char) (rest : List Char)
    (hcu : c ≠ '_') :
    pyIntDigits acc (c :: rest) =
      if c.isDigit then pyIntDigits (acc * 10 + (c.toNat - 48)) rest
      else none := by
  cases rest <;> simp [pyIntDigits, hcu]

/-- The all-digit run folds to its decimal value under the Python/TOML digit
parser. -/
theorem pyIntDigits_all_digits (cs : List Char)
    (h : ∀ c ∈ cs, c.isDigit = true) : ∀ acc,
    pyIntDigits acc cs =
      some (cs.foldl (fun a c => a * 10 + (c.toNat - 48)) acc) := by
  induction cs with
  | nil => intro acc; rfl
  | cons c rest ih =>
    intro acc
    have hc : c.isDigit = true := h c (by simp)
    have hcu : c ≠ '_' := (digit_ne_special c hc).1
    rw [pyIntDigits_cons_ne acc c rest hcu, if_pos hc,
      ih (fun d hd => h d (by simp [hd]))]
    simp [List.foldl_cons]

/-- `pyIntCore` on a nonempty all-digit run folds to its decimal value. -/
theorem pyIntCore_all_digits (d : Char) (ds : List Char)
    (hd : d.isDigit = true) (hds : ∀ c ∈ ds, c.isDigit = true) :
    pyIntCore (d :: ds) =
      some ((d :: ds).foldl (fun a c => a * 10 + (c.toNat - 48)) 0) := by
  show (if d.isDigit then pyIntDigits (d.toNat - 48) ds else none) = _
  rw [if_pos hd, pyIntDigits_all_digits ds hds (d.toNat - 48)]
  simp

/-- The canonical digit list of zero. -/
theorem natDigits_zero : natDigits 0 = ['0'] := by
  rw [natDigits]
  simp [Nat.digitChar]

/-- Folding the decimal digits of `n` onto `acc` computes
`acc * 10 ^ digits + n`. -/
theorem foldl_natDigits (n : Nat) : ∀ acc : Nat,
    (natDigits n).foldl (fun a c => a * 10 + (c.toNat - 48)) acc =
      acc * 10 ^ (natDigits n).length + n := by
  induction n using Nat.strong_induction_on with
  | _ n ih =>
    intro acc
    by_cases h : n < 10
    · have hd : natDigits n = [Nat.digitChar n] := by
        rw [natDigits, if_pos h]
      rw [hd]
      simp [List.foldl, digitChar_toNat n h]
    · have hd : natDigits n = natDigits (n / 10) ++ [Nat.digitChar (n % 10)] := by
        rw [natDigits, if_neg h]
      rw [hd, List.foldl_append,
        ih (n / 10) (Nat.div_lt_self (by omega) (by omega)) acc]
      simp only [List.foldl_cons, List.foldl_nil, List.length_append,
        List.length_singleton]
      rw [digitChar_toNat (n % 10) (Nat.mod_lt _ (by omega)), pow_succ, ← mul_assoc]
      generalize acc * 10 ^ (natDigits (n / 10)).length = A
      omega

/-- The TOML digit-run parser inverts the canonical decimal rendering. -/
theorem parseTomlNat_natDigits (k : Nat) :
    parseTomlNat (natDigits k) = some k := by
  by_cases hk : k = 0
  · subst hk
    rw [natDigits_zero]
    rfl
  · obtain ⟨d, ds, hds, hd0, hddig⟩ := natDigits_head_ne_zero k hk
    have hall := natDigits_all_digit k
    rw [hds] at hall ⊢
    simp only [parseTomlNat]
    rw [if_neg hd0,
      pyIntCore_all_digits d ds (hall d (by simp)) (fun c hc => hall c (by simp [hc]))]
    have hfold := foldl_natDigits k 0
    rw [hds] at hfold
    rw [hfold]
    simp

/-- The characters `toString` produces for an integer: the canonical digit
list, with a leading minus for negative numbers. -/
theorem int_repr_data_ofNat (k : Nat) :
    (toString (Int.ofNat k)).data = natDigits k := by
  show (Nat.repr k).data = natDigits k
  exact repr_data k

/-- The characters `toString` produces for a negative integer. -/
theorem int_repr_data_negSucc (k : Nat) :
    (toString (Int.negSucc k)).data = '-' :: natDigits (k + 1) := by
  show (("-" ++ Nat.repr (k + 1)) : String).data = '-' :: natDigits (k + 1)
  rw [String.data_append, repr_data]
  rfl

/-- The TOML integer parser inverts `toString` on every integer. -/
theorem parseTomlInt_toString (m : Int) :
    parseTomlInt (toString m).data = some (.vInt m) := by
  match m with
  | .ofNat k =>
    rw [int_repr_data_ofNat]
    by_cases hk : k = 0
    · subst hk
      rw [natDigits_zero]
      rfl
    · obtain ⟨d, ds, hds, _, hddig⟩ := natDigits_head_ne_zero k hk
      obtain ⟨_, hplus, hminus, _, _, _⟩ := digit_ne_special d hddig
      rw [hds]
      simp only [parseTomlInt]
      rw [if_neg hplus, if_neg hminus, ← hds, parseTomlNat_natDigits k]
      rfl
  | .negSucc k =>
    rw [int_repr_data_negSucc]
    simp [parseTomlInt, parseTomlNat_natDigits (k + 1), Int.negSucc_eq]

/-- Every character `toString` produces for an integer is a digit or the
minus sign. -/
theorem int_repr_chars (m : Int) :
    ∀ c ∈ (toString m).data, c.isDigit = true ∨ c = '-' := by
  match m with
  | .ofNat k =>
    rw [int_repr_data_ofNat]
    intro c hc
    exact Or.inl (natDigits_all_digit k c hc)
  | .negSucc k =>
    rw [int_repr_data_negSucc]
    intro c hc
    rw [List.mem_cons] at hc
    rcases hc with rfl | hc
    · exact Or.inr rfl
    · exact Or.inl (natDigits_all_digit (k + 1) c hc)

/-- `toString` of an integer is nonempty and never starts with a quote. -/
theorem int_repr_shape (m : Int) :
    ∃ d ds, (toString m).data = d :: ds ∧ d ≠ '"' := by
  match m with
  | .ofNat k =>
    obtain ⟨d, ds, hds, hd⟩ :
        ∃ d ds, natDigits k = d :: ds ∧ d.isDigit = true := by
      by_cases hk : k = 0
      · subst hk
        exact ⟨'0', [], natDigits_zero, by decide⟩
      · obtain ⟨d, ds, hds, _, hdig⟩ := natDigits_head_ne_zero k hk
        exact ⟨d, ds, hds, hdig⟩
    exact ⟨d, ds, by rw [int_repr_data_ofNat, hds], (digit_ne_special d hd).2.2.2.1⟩
  | .negSucc k =>
    exact ⟨'-', natDigits (k + 1), int_repr_data_negSucc k, by decide⟩

/-- A string-safe character is neither a quote nor a newline. -/
theorem tomlStrChar_facts (c : Char) (h : tomlStrChar c = true) :
    c ≠ '"' ∧ c ≠ '\n' :=
  ⟨fun he => absurd h (by rw [he]; decide),
   fun he => absurd h (by rw [he]; decide)⟩

/-- A list that strips to nothing is all whitespace. -/
theorem stripWS_eq_nil (l : List Char) (h : stripWS l = []) :
    ∀ c ∈ l, tomlLineWS c = true := by
  unfold stripWS at h
  rw [List.reverse_eq_nil_iff, List.dropWhile_eq_nil_iff] at h
  intro c hc
  have hsplit : c ∈ l.takeWhile tomlLineWS ++ l.dropWhile tomlLineWS := by
    rw [List.takeWhile_append_dropWhile]
    exact hc
  rcases List.mem_append.mp hsplit with h1 | h2
  · exact List.mem_takeWhile_imp h1
  · exact h c (List.mem_reverse.mpr h2)

/-- The basic-string case of the value parser: a quote-free safe content
between quotes parses to that string. -/
theorem parseTomlValue_string (a : List Char) (hsafe : a.all tomlStrChar = true) :
    parseTomlValue ('"' :: (a ++ ['"'])) = some (.vStr (String.mk a)) := by
  have hnq : ∀ c ∈ a, (fun d => decide (d ≠ '"')) c = true := by
    intro c hc
    simpa using (tomlStrChar_facts c (List.all_eq_true.mp hsafe c hc)).1
  have htw : (a ++ ['"']).takeWhile (fun d => decide (d ≠ '"')) = a := by
    rw [takeWhile_all_append _ a ['"'] hnq]
    simp [List.takeWhile_cons]
  simp only [parseTomlValue, htw, List.drop_left, if_pos rfl, hsafe]
  simp

/-- The integer case of the value parser inverts `toString`. -/
theorem parseTomlValue_int (m : Int) :
    parseTomlValue (toString m).data = some (.vInt m) := by
  obtain ⟨d, ds, hds, hdq⟩ := int_repr_shape m
  rw [hds]
  simp only [parseTomlValue]
  rw [if_neg hdq, ← hds, parseTomlInt_toString m]

/-- A blank line parses as a skip. -/
theorem parseTomlLine_nil : parseTomlLine [] = some none := rfl

/-- A `key = value` line parses to its stripped key and parsed value. -/
theorem parseTomlLine_kv (K V key : List Char)
    (hK : ∀ c ∈ K, c ≠ '=') (hKs : stripWS K = key)
    (hkey1 : key ≠ []) (hkey2 : key.all bareKeyChar = true)
    (v : TomlValue) (hV : parseTomlValue (stripWS V) = some v) :
    parseTomlLine (K ++ '=' :: V) = some (some (String.mk key, v)) := by
  have hne : stripWS (K ++ '=' :: V) ≠ [] := by
    intro h
    have := stripWS_eq_nil _ h '=' (by simp)
    simp [tomlLineWS] at this
  have hboolK : ∀ c ∈ K, (fun d => decide (d ≠ '=')) c = true := by
    intro c hc
    simpa using hK c hc
  have htw : (K ++ '=' :: V).takeWhile (fun c => decide (c ≠ '=')) = K := by
    rw [takeWhile_all_append _ K ('=' :: V) hboolK]
    simp [List.takeWhile_cons]
  simp only [parseTomlLine, htw, List.drop_left, if_neg hne, hKs, hV,
    if_pos (And.intro hkey1 hkey2)]

/-- The bytes `write_file` produces for an address-only configuration. -/
theorem write_file_none (a : String) :
    write_file { ftp := none, device_address := some a } =
      .ok (("device_address = \"" ++ a ++ "\"") ++ "\n") := by
  have hne : ("device_address = \"" ++ a ++ "\"" : String) ≠ "" := by
    intro h
    have hd := congrArg String.data h
    simp [String.data_append] at hd
  have hint : String.intercalate "\n" ["device_address = \"" ++ a ++ "\""] =
      "device_address = \"" ++ a ++ "\"" := rfl
  simp only [write_file, List.append_nil, hint]
  rw [if_pos hne]

/-- The bytes `write_file` produces for an integer-threshold configuration. -/
theorem write_file_int (a : String) (m : Int) :
    write_file { ftp := some (.vInt m), device_address := some a } =
      .ok ((("device_address = \"" ++ a ++ "\"") ++ "\n" ++
        ("ftp = " ++ toString m)) ++ "\n") := by
  have hne : (("device_address = \"" ++ a ++ "\"") ++ "\n" ++
      ("ftp = " ++ toString m) : String) ≠ "" := by
    intro h
    have hd := congrArg String.data h
    simp [String.data_append] at hd
  have hint : String.intercalate "\n"
      ["device_address = \"" ++ a ++ "\"", "ftp = " ++ toString m] =
      ("device_address = \"" ++ a ++ "\"") ++ "\n" ++
        ("ftp = " ++ toString m) := rfl
  have hshow : pyShowToml (TomlValue.vInt m) = toString m := rfl
  simp only [write_file, List.singleton_append, hshow, hint]
  rw [if_pos hne]

/-- Stripping the address value of its leading space. -/
theorem stripWS_address_value (a : String) :
    stripWS (' ' :: '"' :: (a.data ++ ['"'])) = '"' :: (a.data ++ ['"']) := by
  rw [stripWS_ws_cons ' ' _ (by decide)]
  have h : '"' :: (a.data ++ ['"']) = ('"' :: a.data) ++ ['"'] := by simp
  rw [h]
  exact stripWS_of_ends '"' '"' a.data (by decide) (by decide)

/-- Stripping the integer value of its leading space. -/
theorem stripWS_int_value (m : Int) :
    stripWS (' ' :: (toString m).data) = (toString m).data := by
  rw [stripWS_ws_cons ' ' _ (by decide)]
  apply stripWS_all
  intro c hc
  rcases int_repr_chars m c hc with hd | rfl
  · exact (digit_ne_special c hd).2.2.2.2.2
  · decide

/-- The `device_address` line parses to the key and the string value. -/
theorem parseTomlLine_address (a : String) (hsafe : a.data.all tomlStrChar = true) :
    parseTomlLine ("device_address ".data ++ '=' :: (' ' :: '"' :: (a.data ++ ['"']))) =
      some (some ("device_address", .vStr a)) := by
  have hV : parseTomlValue (stripWS (' ' :: '"' :: (a.data ++ ['"']))) =
      some (.vStr a) := by
    rw [stripWS_address_value a]
    exact parseTomlValue_string a.data hsafe
  exact parseTomlLine_kv ("device_address ".data) (' ' :: '"' :: (a.data ++ ['"']))
    ("device_address".data) (by decide) (by decide) (by decide) (by decide)
    (.vStr a) hV

/-- The `ftp` line parses to the key and the integer value. -/
theorem parseTomlLine_ftp (m : Int) :
    parseTomlLine ("ftp ".data ++ '=' :: (' ' :: (toString m).data)) =
      some (some ("ftp", .vInt m)) := by
  have hV : parseTomlValue (stripWS (' ' :: (toString m).data)) = some (.vInt m) := by
    rw [stripWS_int_value m]
    exact parseTomlValue_int m
  exact parseTomlLine_kv ("ftp ".data) (' ' :: (toString m).data) ("ftp".data)
    (by decide) (by decide) (by decide) (by decide) (.vInt m) hV

/-- Character decomposition of the written address line. -/
theorem data_addr_line (a : String) :
    ("device_address = \"" ++ a ++ "\"" : String).data =
      "device_address ".data ++ '=' :: (' ' :: '"' :: (a.data ++ ['"'])) := by
  have h1 : ("device_address = \"" : String).data =
      "device_address ".data ++ ['=', ' ', '"'] := by decide
  have h2 : ("\"" : String).data = ['"'] := by decide
  simp [String.data_append, h1, h2]

/-- Character decomposition of the written ftp line. -/
theorem data_ftp_line (m : Int) :
    ("ftp = " ++ toString m : String).data =
      "ftp ".data ++ '=' :: (' ' :: (toString m).data) := by
  have h1 : ("ftp = " : String).data = "ftp ".data ++ ['=', ' '] := by decide
  simp [String.data_append, h1]

/-- The written address line contains no newline. -/
theorem addr_line_no_nl (a : String) (hsafe : a.data.all tomlStrChar = true) :
    ∀ c ∈ ("device_address ".data ++ '=' :: (' ' :: '"' :: (a.data ++ ['"']))),
      c ≠ '\n' := by
  have hpre : ∀ c ∈ ("device_address ".data : List Char), c ≠ '\n' := by decide
  intro c hc
  rcases List.mem_append.mp hc with h1 | h2
  · exact hpre c h1
  · simp only [List.mem_cons, List.mem_append, List.mem_singleton,
      List.not_mem_nil, or_false] at h2
    rcases h2 with rfl | rfl | rfl | hmem | rfl
    · decide
    · decide
    · decide
    · exact (tomlStrChar_facts c (List.all_eq_true.mp hsafe c hmem)).2
    · decide

/-- The written ftp line contains no newline. -/
theorem ftp_line_no_nl (m : Int) :
    ∀ c ∈ ("ftp ".data ++ '=' :: (' ' :: (toString m).data)), c ≠ '\n' := by
  have hpre : ∀ c ∈ ("ftp ".data : List Char), c ≠ '\n' := by decide
  intro c hc
  rcases List.mem_append.mp hc with h1 | h2
  · exact hpre c h1
  · simp only [List.mem_cons] at h2
    rcases h2 with rfl | rfl | hmem
    · decide
    · decide
    · rcases int_repr_chars m c hmem with hd | rfl
      · exact (digit_ne_special c hd).2.2.2.2.1
      · decide

/-- Reloading the bytes written for an address-only configuration. -/
theorem load_bytes_addr_only (a : String) (hsafe : a.data.all tomlStrChar = true) :
    load_bytes (("device_address = \"" ++ a ++ "\"") ++ "\n") =
      .ok { ftp := none, device_address := some a } := by
  have hnl : ("\n" : String).data = ['\n'] := by decide
  have hdata : ((("device_address = \"" ++ a ++ "\"") ++ "\n") : String).data =
      ("device_address ".data ++ '=' :: (' ' :: '"' :: (a.data ++ ['"']))) ++
        '\n' :: [] := by
    rw [String.data_append, data_addr_line a, hnl]
  unfold load_bytes tomllibLoad
  rw [hdata, splitOnNl_append_cons _ _ (addr_line_no_nl a hsafe),
    show splitOnNl [] = [[]] from rfl]
  simp only [parseTomlLines, parseTomlLine_address a hsafe, parseTomlLine_nil]
  rfl

/-- Reloading the bytes written for an integer-threshold configuration. -/
theorem load_bytes_addr_int (a : String) (hsafe : a.data.all tomlStrChar = true)
    (m : Int) :
    load_bytes ((("device_address = \"" ++ a ++ "\"") ++ "\n" ++
        ("ftp = " ++ toString m)) ++ "\n") =
      .ok { ftp := some (.vInt m), device_address := some a } := by
  have hnl : ("\n" : String).data = ['\n'] := by decide
  have hdata : (((("device_address = \"" ++ a ++ "\"") ++ "\n" ++
      ("ftp = " ++ toString m)) ++ "\n") : String).data =
      ("device_address ".data ++ '=' :: (' ' :: '"' :: (a.data ++ ['"']))) ++
        '\n' :: (("ftp ".data ++ '=' :: (' ' :: (toString m).data)) ++ '\n' :: []) := by
    simp [String.data_append, data_addr_line a, data_ftp_line m, hnl]
  unfold load_bytes tomllibLoad
  rw [hdata, splitOnNl_append_cons _ _ (addr_line_no_nl a hsafe),
    splitOnNl_append_cons _ _ (ftp_line_no_nl m),
    show splitOnNl [] = [[]] from rfl]
  simp only [parseTomlLines, parseTomlLine_address a hsafe, parseTomlLine_ftp m,
    parseTomlLine_nil]
  rfl

/-- The byte-level round trip: a configuration with an address of
string-safe characters and an integer (or absent) threshold writes to bytes
that reload as exactly the same configuration. -/
theorem write_load_round_trip (c : Config) (a : String)
    (hda : c.device_address = some a) (hdemo : c.demo = false)
    (hsafe : a.data.all tomlStrChar = true)
    (hftp : c.ftp = none ∨ ∃ m : Int, c.ftp = some (.vInt m)) :
    ∃ bytes : String, write_file c = .ok bytes ∧ load_bytes bytes = .ok c := by
  rcases hftp with hftp | ⟨m, hftp⟩
  · have hc : c = { ftp := none, device_address := some a } := by
      rcases c with ⟨f, d, dm⟩
      simp_all
    rw [hc]
    exact ⟨_, write_file_none a, load_bytes_addr_only a hsafe⟩
  · have hc : c = { ftp := some (.vInt m), device_address := some a } := by
      rcases c with ⟨f, d, dm⟩
      simp_all
    rw [hc]
    exact ⟨_, write_file_int a m, load_bytes_addr_int a hsafe m⟩

/-- C2: the claim quantifies over every configuration on disk with a
reachable `deviceAddress` and asserts byte-for-byte stable persistence over
two runs.  Counterexample: the valid-TOML file
`device_address = "11:22:33:44:55:66"` / `ftp = "abc"` loads successfully
(so it is in the claim's domain), the first run completes and writes
`ftp = abc` — Python's `str()` renders the string value unquoted — and the
written bytes are no longer valid TOML, so the second run's load fails with
a `ConfigError` instead of completing: the persisted content is not stable
across two runs. -/
theorem C2_counterexample :
    load_bytes "device_address = \"11:22:33:44:55:66\"\nftp = \"abc\"\n" =
      .ok { ftp := some (.vStr "abc"), device_address := some "11:22:33:44:55:66" } ∧
    bootstrap_app ⟨fun _ => true, [⟨"T", "11:22:33:44:55:66", -50⟩]⟩
        ⟨some { ftp := some (.vStr "abc"), device_address := some "11:22:33:44:55:66" }⟩
        ⟨[], [], [], [], []⟩ =
      (some { ftp := some (.vStr "abc"), device_address := some "11:22:33:44:55:66" },
        ⟨some { ftp := some (.vStr "abc"), device_address := some "11:22:33:44:55:66" }⟩,
        [.evLoadFile, .evConnect "11:22:33:44:55:66", .evScan,
          .evWriteFile { ftp := some (.vStr "abc"), device_address := some "11:22:33:44:55:66" }]) ∧
    write_file { ftp := some (.vStr "abc"), device_address := some "11:22:33:44:55:66" } =
      .ok "device_address = \"11:22:33:44:55:66\"\nftp = abc\n" ∧
    load_bytes "device_address = \"11:22:33:44:55:66\"\nftp = abc\n" =
      .error (.configError "Invalid TOML") := by
  refine ⟨?_, ?_, ?_, ?_⟩ <;> rfl

/-- C2 (amended): for every configuration on disk whose `thresholdPower` is
an integer or absent and whose `deviceAddress` is a string of TOML-safe
characters (no quote, backslash, or control characters) that tests
reachable (the connect check passes and the address appears in the fresh
scan), the bootstrap completes with `thresholdPower` and `deviceAddress`
unchanged and writes the configuration; the written `bytes` reload through
the store as exactly the same configuration, so the second run — whose
loaded input is that reload — is the identical computation and writes the
identical `bytes`: persistence is byte-for-byte stable across the two
runs. -/
theorem C2_idempotent_reconnect :
    ∀ (env : BleEnv) (c : Config) (a : String) (t : TrainerInfo)
      (ui1 ui2 : SetupUIState),
      c.device_address = some a →
      c.demo = false →
      a.data.all tomlStrChar = true →
      (c.ftp = none ∨ ∃ m : Int, c.ftp = some (.vInt m)) →
      env.connect a = true →
      env.scanResult.find? (fun x => x.address == a) = some t →
      ∃ bytes : String,
        bootstrap_app env ⟨some c⟩ ui1 =
          (some c, ⟨some c⟩, [.evLoadFile, .evConnect a, .evScan, .evWriteFile c]) ∧
        write_file c = .ok bytes ∧
        load_bytes bytes = .ok c ∧
        bootstrap_app env ⟨some c⟩ ui2 =
          (some c, ⟨some c⟩, [.evLoadFile, .evConnect a, .evScan, .evWriteFile c]) := by
  intro env c a t ui1 ui2 h1 hdemo hsafe hftp h2 h3
  obtain ⟨bytes, hw, hl⟩ := write_load_round_trip c a h1 hdemo hsafe hftp
  exact ⟨bytes, bootstrap_reconnect_run env c a ui1 t h1 h2 h3, hw, hl,
    bootstrap_reconnect_run env c a ui2 t h1 h2 h3⟩

/-- Witness for C2: the spec §8 reconnect scenario — stored FTP 200 and a
reachable, listed address — runs, persists, reloads identically, and runs
again identically. -/
theorem C2_witness :
    ∃ bytes : String,
      bootstrap_app ⟨fun _ => true, [⟨"T", "11:22:33:44:55:66", -50⟩]⟩
          ⟨some { ftp := some (.vInt 200), device_address := some "11:22:33:44:55:66" }⟩
          ⟨[], [], [], [], []⟩ =
        (some { ftp := some (.vInt 200), device_address := some "11:22:33:44:55:66" },
          ⟨some { ftp := some (.vInt 200), device_address := some "11:22:33:44:55:66" }⟩,
          [.evLoadFile, .evConnect "11:22:33:44:55:66", .evScan,
            .evWriteFile { ftp := some (.vInt 200), device_address := some "11:22:33:44:55:66" }]) ∧
      write_file { ftp := some (.vInt 200), device_address := some "11:22:33:44:55:66" } =
        .ok bytes ∧
      load_bytes bytes =
        .ok { ftp := some (.vInt 200), device_address := some "11:22:33:44:55:66" } ∧
      bootstrap_app ⟨fun _ => true, [⟨"T", "11:22:33:44:55:66", -50⟩]⟩
          ⟨some { ftp := some (.vInt 200), device_address := some "11:22:33:44:55:66" }⟩
          ⟨[], [], [], [], []⟩ =
        (some { ftp := some (.vInt 200), device_address := some "11:22:33:44:55:66" },
          ⟨some { ftp := some (.vInt 200), device_address := some "11:22:33:44:55:66" }⟩,
          [.evLoadFile, .evConnect "11:22:33:44:55:66", .evScan,
            .evWriteFile { ftp := some (.vInt 200), device_address := some "11:22:33:44:55:66" }]) :=
  C2_idempotent_reconnect ⟨fun _ => true, [⟨"T", "11:22:33:44:55:66", -50⟩]⟩
    { ftp := some (.vInt 200), device_address := some "11:22:33:44:55:66" }
    "11:22:33:44:55:66" ⟨"T", "11:22:33:44:55:66", -50⟩
    ⟨[], [], [], [], []⟩ ⟨[], [], [], [], []⟩ rfl rfl (by decide)
    (Or.inr ⟨200, rfl⟩) rfl rfl

/-- C3: the claim (and the repository's own tests and terminal UI) say a
demo-mode choice is offered at the no-devices and reconnect-failure prompts
and leads to Completed(demoMode=true); evaluating `bootstrap_app` of
src/cytraco/bootstrap.py on the scenario of `test_bootstrap_app_demo_mode`
(no config file, FTP 250 entered, empty scan, the user answering the
no-trainers prompt with the UI's demo key, which parses to `CONTINUE`)
returns `None` — the run is cancelled, no demo completion exists. -/
theorem C3_no_demo_in_bootstrap :
    bootstrap_app ⟨fun _ => false, []⟩ ⟨none⟩
        ⟨[some 250], [some UserChoice.CONTINUE], [], [], []⟩ =
      (none, ⟨none⟩, [.evPromptFtp, .evScan, .evPromptNoTrainers]) := rfl

/-- C9: the configured-trainer test succeeds exactly when the connection
check passes and a device with the configured address appears in the fresh
scan, the returned trainer carries that address, and a device that is
reachable but absent from the fresh scan is routed to the reconnect-failure
prompt. -/
theorem C9_reachable_iff_listed :
    (∀ (env : BleEnv) (a : String),
      ((_test_configured_trainer env a).fst.isSome = true) ↔
        (env.connect a = true ∧ ∃ t ∈ env.scanResult, t.address = a)) ∧
    (∀ (env : BleEnv) (a : String) (t : TrainerInfo),
      (_test_configured_trainer env a).fst = some t → t.address = a) ∧
    (∀ (env : BleEnv) (c : Config) (ui : SetupUIState) (a : String),
      c.device_address = some a → env.connect a = true →
      (∀ t ∈ env.scanResult, t.address ≠ a) →
      Event.evPromptReconnect a ∈ (_select_trainer env c ui).snd) := by
  refine ⟨?_, ?_, ?_⟩
  · intro env a
    by_cases hc : env.connect a
    · rw [test_configured_eq env a hc]
      simp [List.find?_isSome, hc]
    · rw [test_configured_eq_unreachable env a (by simpa using hc)]
      simp [hc]
  · intro env a t h
    by_cases hc : env.connect a
    · rw [test_configured_eq env a hc] at h
      have := List.find?_some h
      simpa using this
    · rw [test_configured_eq_unreachable env a (by simpa using hc)] at h
      simp at h
  · intro env c ui a hda hc habs
    have hfind : env.scanResult.find? (fun t => t.address == a) = none :=
      List.find?_eq_none.mpr (by intro t ht; simpa using habs t ht)
    unfold _select_trainer
    simp only [hda, test_configured_eq env a hc, hfind]
    rcases hh : _handle_unreachable_trainer env a ui.reconnectResponses with ⟨r, tr2⟩
    have hmem := handle_unreachable_mem_prompt env a ui.reconnectResponses
    rw [hh] at hmem
    rcases r with _ | t | _ <;> simp [List.mem_append, hmem]

/-- Witness for C9: a reachable address that is absent from the (empty)
fresh scan reaches the reconnect-failure prompt. -/
theorem C9_witness :
    Event.evPromptReconnect "11:22:33:44:55:66" ∈
      (_select_trainer ⟨fun _ => true, []⟩
        { ftp := some (.vInt 200), device_address := some "11:22:33:44:55:66" }
        ⟨[], [], [], [], []⟩).snd :=
  C9_reachable_iff_listed.2.2 ⟨fun _ => true, []⟩
    { ftp := some (.vInt 200), device_address := some "11:22:33:44:55:66" }
    ⟨[], [], [], [], []⟩ "11:22:33:44:55:66" rfl rfl (by intro t ht; simp at ht)

/-- C7: with the demo flag set, the run bypasses every device-selection
state (its trace has no scan, connect, or device prompt) and, once a
threshold is known (a configuration is on disk, or the FTP prompt yields a
value), it completes with demoMode=true and the CLI exits with code 0. -/
theorem C7_demo_flag_bypasses_devices :
    ∀ (disk : FileState) (ftpRs : List (Option Int)),
      (∃ c, disk.content = some c) ∨
        (disk.content = none ∧ ∃ v, ftpRs.head? = some (some v)) →
      ∃ r : BootstrapResult,
        (bootstrap_demo_mode disk ftpRs).fst = some r ∧ r.demo_mode = true ∧
        (cli_demo_run disk ftpRs).fst = some 0 ∧
        ∀ e ∈ (cli_demo_run disk ftpRs).snd, e.isDeviceEvent = false := by
  intro disk ftpRs h
  rcases h with ⟨c, hc⟩ | ⟨hn, v, hv⟩
  · refine ⟨⟨c, true⟩, ?_, rfl, ?_, ?_⟩
    · simp [bootstrap_demo_mode, hc]
    · simp [cli_demo_run, bootstrap_demo_mode, hc]
    · intro e he
      simp [cli_demo_run, bootstrap_demo_mode, hc] at he
      simp [he, Event.isDeviceEvent]
  · refine ⟨⟨{ ftp := some (.vInt v), device_address := none }, true⟩, ?_, rfl, ?_, ?_⟩
    · simp [bootstrap_demo_mode, hn, hv]
    · simp [cli_demo_run, bootstrap_demo_mode, hn, hv]
    · intro e he
      simp [cli_demo_run, bootstrap_demo_mode, hn, hv] at he
      simp [he, Event.isDeviceEvent]

/-- Witness for C7: a stored threshold-only configuration runs to a
demo-mode completion with exit code 0 and no device interaction. -/
theorem C7_witness :
    ∃ r : BootstrapResult,
      (bootstrap_demo_mode ⟨some { ftp := some (.vInt 200), device_address := none }⟩ []).fst = some r ∧
      r.demo_mode = true ∧
      (cli_demo_run ⟨some { ftp := some (.vInt 200), device_address := none }⟩ []).fst = some 0 ∧
      ∀ e ∈ (cli_demo_run ⟨some { ftp := some (.vInt 200), device_address := none }⟩ []).snd, e.isDeviceEvent = false :=
  C7_demo_flag_bypasses_devices ⟨some { ftp := some (.vInt 200), device_address := none }⟩ [] (Or.inl ⟨_, rfl⟩)

/-- C10: the terminal FTP prompt returns `None` (user exit, interrupt, or
end of input) or a strictly positive integer, and a non-positive or
unparsable entry re-prompts on the remaining input instead of returning. -/
theorem C10_prompt_ftp_positive :
    (∀ (inputs : List UserInput) (n : Int), prompt_ftp inputs = some n → 0 < n) ∧
    (∀ (s : String) (rest : List UserInput),
      pyLower (pyStrip s) ≠ "e" →
      (pyInt (pyStrip s) = none ∨ ∃ n, pyInt (pyStrip s) = some n ∧ n ≤ 0) →
      prompt_ftp (.text s :: rest) = prompt_ftp rest) := by
  constructor
  · intro inputs
    induction inputs with
    | nil => intro n h; simp [prompt_ftp] at h
    | cons i rest ih =>
      intro n h
      match i with
      | .interrupt => simp [prompt_ftp] at h
      | .eofInput => simp [prompt_ftp] at h
      | .text s =>
        by_cases he : pyLower (pyStrip s) = "e"
        · simp [prompt_ftp, he] at h
        · simp only [prompt_ftp, he, if_false] at h
          rcases hp : pyInt (pyStrip s) with _ | m
          · rw [hp] at h
            exact ih n h
          · rw [hp] at h
            by_cases hm : m > 0
            · simp only [hm, if_pos, Option.some.injEq] at h
              omega
            · simp only [hm, if_neg, if_false] at h
              exact ih n h
  · intro s rest he hbad
    rcases hbad with hp | ⟨n, hp, hn⟩
    · simp only [prompt_ftp, he, if_false, hp]
    · simp only [prompt_ftp, he, if_false, hp]
      have : ¬ n > 0 := by omega
      simp [this]

/-- Witness for C10: `250` is returned (positive), and the non-positive
entry `0` re-prompts. -/
theorem C10_witness :
    (0 : Int) < 250 ∧
      prompt_ftp [.text "0", .text "250"] = prompt_ftp [.text "250"] :=
  ⟨C10_prompt_ftp_positive.1 [.text "250"] 250 (by decide),
    C10_prompt_ftp_positive.2 "0" [.text "250"] (by decide)
      (Or.inr ⟨0, by decide, by omega⟩)⟩

end Cytraco
